import Mathlib

/-! Shallow embedding of the SimpleRandomWalk repository
(`entorno.py`, `random_walk.py`, `visualizador.py`).

Coordinates are integers.  Randomness (`random.choice(DIRECCIONES)`) is
modelled by an explicit oracle `draws : Nat → Fin 4` giving, for each
successive call to `random.choice`, the index of the chosen element of
`DIRECCIONES`; operations return the advanced oracle (`shift`-ed by the
number of draws consumed) so that sequential composition threads it.
Python's float square root is modelled by `Real.sqrt` on exact integers.
-/

namespace SimpleRandomWalk

/-- `Entorno` from `entorno.py`: width `ancho`, height `alto` and the
initial position `pos_inicial`.  The constructor performs no validation. -/
structure Entorno where
  ancho : Int
  alto : Int
  pos_inicial : Int × Int
deriving DecidableEq, Repr

/-- `Entorno.__init__`: when `pos_inicial` is `None` the start defaults to
`(ancho // 2, alto // 2)` (Python floor division, hence `Int.fdiv`). -/
def Entorno.crear (ancho alto : Int) (pos_inicial : Option (Int × Int)) : Entorno :=
  match pos_inicial with
  | none => { ancho := ancho, alto := alto, pos_inicial := (ancho.fdiv 2, alto.fdiv 2) }
  | some p => { ancho := ancho, alto := alto, pos_inicial := p }

/-- `Entorno.es_posicion_valida`: `0 <= x < self.ancho and 0 <= y < self.alto`. -/
def es_posicion_valida (e : Entorno) (x y : Int) : Bool :=
  decide (0 ≤ x ∧ x < e.ancho ∧ 0 ≤ y ∧ y < e.alto)

/-- `Entorno.obtener_dimensiones`: returns `(ancho, alto)`. -/
def obtener_dimensiones (e : Entorno) : Int × Int :=
  (e.ancho, e.alto)

/-- `RandomWalk.DIRECCIONES`: up, down, left, right (y grows downwards). -/
def DIRECCIONES : List (Int × Int) :=
  [(0, -1), (0, 1), (-1, 0), (1, 0)]

/-- `random.choice(self.DIRECCIONES)` given the oracle's index for this draw. -/
def elegir_direccion (i : Fin 4) : Int × Int :=
  DIRECCIONES.getD i.val (0, 0)

/-- Mutable state of `RandomWalk` (`random_walk.py`): the environment, the
current position, the visited path, and the two counters. -/
structure RandomWalk where
  entorno : Entorno
  posicion_actual : Int × Int
  camino : List (Int × Int)
  pasos_realizados : Nat
  intentos_bloqueados : Nat
deriving DecidableEq, Repr

/-- `RandomWalk.__init__`: position at the environment's start, path
`[start]`, both counters zero. -/
def RandomWalk.init (entorno : Entorno) : RandomWalk :=
  { entorno := entorno
    posicion_actual := entorno.pos_inicial
    camino := [entorno.pos_inicial]
    pasos_realizados := 0
    intentos_bloqueados := 0 }

/-- Advance the random oracle past one consumed draw. -/
def shift (draws : Nat → Fin 4) : Nat → Fin 4 :=
  fun i => draws (i + 1)

/-- The `while intentos_locales < max_intentos` loop of
`RandomWalk.realizar_paso`, with the remaining number of allowed attempts as
fuel.  Each iteration draws a direction (`draws 0`), forms the candidate
position, and either commits it (append to `camino`, bump
`pasos_realizados`, return `true`) or bumps `intentos_bloqueados` and
retries on the shifted oracle.  Returns the success flag, the new engine
state and the advanced oracle. -/
def realizar_paso_aux : Nat → (Nat → Fin 4) → RandomWalk → Bool × RandomWalk × (Nat → Fin 4)
  | 0, draws, w => (false, w, draws)
  | n + 1, draws, w =>
    if es_posicion_valida w.entorno
        (w.posicion_actual.1 + (elegir_direccion (draws 0)).1)
        (w.posicion_actual.2 + (elegir_direccion (draws 0)).2) then
      (true,
        { w with
          posicion_actual :=
            (w.posicion_actual.1 + (elegir_direccion (draws 0)).1,
             w.posicion_actual.2 + (elegir_direccion (draws 0)).2)
          camino := w.camino ++
            [(w.posicion_actual.1 + (elegir_direccion (draws 0)).1,
              w.posicion_actual.2 + (elegir_direccion (draws 0)).2)]
          pasos_realizados := w.pasos_realizados + 1 },
        shift draws)
    else
      realizar_paso_aux n (shift draws) { w with intentos_bloqueados := w.intentos_bloqueados + 1 }

/-- `RandomWalk.realizar_paso(max_intentos)`: since `intentos_locales`
starts at `0` and only grows on failed attempts, the loop body runs at most
`max_intentos.toNat` times (zero times when `max_intentos <= 0`). -/
def realizar_paso (w : RandomWalk) (draws : Nat → Fin 4) (max_intentos : Int) :
    Bool × RandomWalk × (Nat → Fin 4) :=
  realizar_paso_aux max_intentos.toNat draws w

/-- The dictionary returned by `RandomWalk.obtener_estadisticas`, as a
record with one field per key. -/
structure Estadisticas where
  pasos_realizados : Nat
  intentos_bloqueados : Nat
  posicion_inicial : Int × Int
  posicion_final : Int × Int
  camino : List (Int × Int)
  distancia_euclidiana : ℝ
  distancia_manhattan : Int

/-- `RandomWalk._calcular_distancia_euclidiana`:
`((x1 - x0)**2 + (y1 - y0)**2)**0.5`, the float square root modelled as
`Real.sqrt` of the exact integer sum of squares. -/
noncomputable def calcular_distancia_euclidiana (w : RandomWalk) : ℝ :=
  Real.sqrt
    (((w.posicion_actual.1 - w.entorno.pos_inicial.1) ^ 2 +
      (w.posicion_actual.2 - w.entorno.pos_inicial.2) ^ 2 : Int) : ℝ)

/-- `RandomWalk._calcular_distancia_manhattan`: `abs(x1 - x0) + abs(y1 - y0)`. -/
def calcular_distancia_manhattan (w : RandomWalk) : Int :=
  |w.posicion_actual.1 - w.entorno.pos_inicial.1| +
  |w.posicion_actual.2 - w.entorno.pos_inicial.2|

/-- `RandomWalk.obtener_estadisticas`: a read-only snapshot of the engine
state (`camino.copy()` is modelled by the list value itself). -/
noncomputable def obtener_estadisticas (w : RandomWalk) : Estadisticas :=
  { pasos_realizados := w.pasos_realizados
    intentos_bloqueados := w.intentos_bloqueados
    posicion_inicial := w.entorno.pos_inicial
    posicion_final := w.posicion_actual
    camino := w.camino
    distancia_euclidiana := calcular_distancia_euclidiana w
    distancia_manhattan := calcular_distancia_manhattan w }

/-- The `for paso in range(num_pasos)` loop of `RandomWalk.simular`: call
`realizar_paso` and continue with the budget decremented, breaking out of
the loop the first time a call returns `false`.  In the Python source each
call uses `realizar_paso`'s default `max_intentos = 1000`; the bound is a
parameter `mi` here, instantiated at `1000` for the source's behaviour. -/
def simular_bucle (mi : Int) : Nat → RandomWalk × (Nat → Fin 4) → RandomWalk × (Nat → Fin 4)
  | 0, s => s
  | n + 1, s =>
    if (realizar_paso s.1 s.2 mi).1 then
      simular_bucle mi n (realizar_paso s.1 s.2 mi).2
    else
      (realizar_paso s.1 s.2 mi).2

/-- `RandomWalk.simular(num_pasos)`: run the loop, then
`return self.obtener_estadisticas()`. -/
noncomputable def simular (w : RandomWalk) (draws : Nat → Fin 4) (num_pasos : Nat)
    (mi : Int) : Estadisticas :=
  obtener_estadisticas (simular_bucle mi num_pasos (w, draws)).1

/-- `RandomWalk.reiniciar`: restore position, path and both counters. -/
def reiniciar (w : RandomWalk) : RandomWalk :=
  { w with
    posicion_actual := w.entorno.pos_inicial
    camino := [w.entorno.pos_inicial]
    pasos_realizados := 0
    intentos_bloqueados := 0 }

/-- `k` unconditional sequential calls to `realizar_paso`, used to
characterise how far `simular_bucle` gets before stopping. -/
def iterar (mi : Int) : Nat → RandomWalk × (Nat → Fin 4) → RandomWalk × (Nat → Fin 4)
  | 0, s => s
  | k + 1, s => iterar mi k (realizar_paso s.1 s.2 mi).2

/-- The efficiency metric printed by `Visualizador.mostrar_estadisticas`
(`visualizador.py`): computed, and shown, only under the source's guard
`estadisticas['pasos_realizados'] > 0`; value
`pasos / (pasos + bloqueados) * 100`, modelled over `ℚ`. -/
def eficiencia (est : Estadisticas) : Option ℚ :=
  if 0 < est.pasos_realizados then
    some ((est.pasos_realizados : ℚ) /
      ((est.pasos_realizados : ℚ) + (est.intentos_bloqueados : ℚ)) * 100)
  else
    none

/-- Two cells differ by one of the four canonical unit displacements. -/
def adyacente (p q : Int × Int) : Prop :=
  (q.1 - p.1, q.2 - p.2) ∈ DIRECCIONES

/-- Engine states reachable from construction over `e` by any sequence of
`realizar_paso`, `simular` and `reiniciar` calls (`obtener_estadisticas`
reads the state without mutating it, so it needs no constructor). -/
inductive Alcanzable (e : Entorno) : RandomWalk → Prop
  | inicial : Alcanzable e (RandomWalk.init e)
  | paso (w : RandomWalk) (draws : Nat → Fin 4) (mi : Int) :
      Alcanzable e w → Alcanzable e (realizar_paso w draws mi).2.1
  | simulacion (w : RandomWalk) (draws : Nat → Fin 4) (n : Nat) (mi : Int) :
      Alcanzable e w → Alcanzable e (simular_bucle mi n (w, draws)).1
  | reinicio (w : RandomWalk) :
      Alcanzable e w → Alcanzable e (reiniciar w)

/-- The state invariant maintained by every operation: the environment is
fixed, the path length tracks the step counter, the path starts at the
environment's start, ends at the current position, consecutive cells are
adjacent, and every cell after the first passed the validity check. -/
def invariante (e : Entorno) (w : RandomWalk) : Prop :=
  w.entorno = e ∧
  w.camino.length = w.pasos_realizados + 1 ∧
  w.camino.head? = some e.pos_inicial ∧
  w.camino.getLast? = some w.posicion_actual ∧
  List.Chain' adyacente w.camino ∧
  ∀ p ∈ w.camino.tail, es_posicion_valida e p.1 p.2 = true

/-! ### Basic lemmas about the step loop -/

theorem elegir_direccion_mem (i : Fin 4) : elegir_direccion i ∈ DIRECCIONES := by
  fin_cases i <;> decide

theorem elegir_direccion_cases (i : Fin 4) :
    elegir_direccion i = (0, -1) ∨ elegir_direccion i = (0, 1) ∨
    elegir_direccion i = (-1, 0) ∨ elegir_direccion i = (1, 0) := by
  fin_cases i <;> decide

/-- One loop iteration whose sampled candidate is valid: commit and stop. -/
theorem realizar_paso_aux_valido (n : Nat) (draws : Nat → Fin 4) (w : RandomWalk)
    (hv : es_posicion_valida w.entorno
      (w.posicion_actual.1 + (elegir_direccion (draws 0)).1)
      (w.posicion_actual.2 + (elegir_direccion (draws 0)).2) = true) :
    realizar_paso_aux (n + 1) draws w =
      (true,
        { w with
          posicion_actual :=
            (w.posicion_actual.1 + (elegir_direccion (draws 0)).1,
             w.posicion_actual.2 + (elegir_direccion (draws 0)).2)
          camino := w.camino ++
            [(w.posicion_actual.1 + (elegir_direccion (draws 0)).1,
              w.posicion_actual.2 + (elegir_direccion (draws 0)).2)]
          pasos_realizados := w.pasos_realizados + 1 },
        shift draws) := by
  simp [realizar_paso_aux, hv]

/-- One loop iteration whose sampled candidate is invalid: count the blocked
attempt and resample. -/
theorem realizar_paso_aux_invalido (n : Nat) (draws : Nat → Fin 4) (w : RandomWalk)
    (hv : es_posicion_valida w.entorno
      (w.posicion_actual.1 + (elegir_direccion (draws 0)).1)
      (w.posicion_actual.2 + (elegir_direccion (draws 0)).2) = false) :
    realizar_paso_aux (n + 1) draws w =
      realizar_paso_aux n (shift draws)
        { w with intentos_bloqueados := w.intentos_bloqueados + 1 } := by
  simp [realizar_paso_aux, hv]

/-- A failed step changes nothing but `intentos_bloqueados`, which gains
exactly the number of attempts allowed. -/
theorem realizar_paso_aux_fallo :
    ∀ (n : Nat) (draws : Nat → Fin 4) (w : RandomWalk),
      (realizar_paso_aux n draws w).1 = false →
      (realizar_paso_aux n draws w).2.1 =
        { w with intentos_bloqueados := w.intentos_bloqueados + n }
  | 0, draws, w => by
    intro _
    simp [realizar_paso_aux]
  | n + 1, draws, w => by
    intro h
    by_cases hv : es_posicion_valida w.entorno
        (w.posicion_actual.1 + (elegir_direccion (draws 0)).1)
        (w.posicion_actual.2 + (elegir_direccion (draws 0)).2) = true
    · rw [realizar_paso_aux_valido n draws w hv] at h
      simp at h
    · rw [Bool.not_eq_true] at hv
      rw [realizar_paso_aux_invalido n draws w hv] at h ⊢
      rw [realizar_paso_aux_fallo n (shift draws) _ h]
      congr 1
      show w.intentos_bloqueados + 1 + n = w.intentos_bloqueados + (n + 1)
      omega

/-- A successful step advances `pasos_realizados` by exactly one and leaves
`intentos_bloqueados` with one increment per rejected sample before it. -/
theorem realizar_paso_aux_exito :
    ∀ (n : Nat) (draws : Nat → Fin 4) (w : RandomWalk),
      (realizar_paso_aux n draws w).1 = true →
      (realizar_paso_aux n draws w).2.1.pasos_realizados = w.pasos_realizados + 1
  | 0, draws, w => by
    intro h
    simp [realizar_paso_aux] at h
  | n + 1, draws, w => by
    intro h
    by_cases hv : es_posicion_valida w.entorno
        (w.posicion_actual.1 + (elegir_direccion (draws 0)).1)
        (w.posicion_actual.2 + (elegir_direccion (draws 0)).2) = true
    · rw [realizar_paso_aux_valido n draws w hv]
    · rw [Bool.not_eq_true] at hv
      rw [realizar_paso_aux_invalido n draws w hv] at h ⊢
      exact realizar_paso_aux_exito n (shift draws) _ h

/-- The step loop never changes the environment. -/
theorem realizar_paso_aux_entorno :
    ∀ (n : Nat) (draws : Nat → Fin 4) (w : RandomWalk),
      (realizar_paso_aux n draws w).2.1.entorno = w.entorno
  | 0, _, _ => rfl
  | n + 1, draws, w => by
    by_cases hv : es_posicion_valida w.entorno
        (w.posicion_actual.1 + (elegir_direccion (draws 0)).1)
        (w.posicion_actual.2 + (elegir_direccion (draws 0)).2) = true
    · rw [realizar_paso_aux_valido n draws w hv]
    · rw [Bool.not_eq_true] at hv
      rw [realizar_paso_aux_invalido n draws w hv]
      exact realizar_paso_aux_entorno n (shift draws) _

/-! ### Invariant preservation -/

theorem invariante_init (e : Entorno) : invariante e (RandomWalk.init e) := by
  refine ⟨rfl, rfl, rfl, rfl, List.chain'_singleton _, ?_⟩
  intro p hp
  simp [RandomWalk.init] at hp

theorem invariante_paso_aux :
    ∀ (n : Nat) (draws : Nat → Fin 4) (w : RandomWalk) (e : Entorno),
      invariante e w → invariante e (realizar_paso_aux n draws w).2.1
  | 0, _, _, _ => fun h => h
  | n + 1, draws, w, e => fun h => by
    by_cases hv : es_posicion_valida w.entorno
        (w.posicion_actual.1 + (elegir_direccion (draws 0)).1)
        (w.posicion_actual.2 + (elegir_direccion (draws 0)).2) = true
    · rw [realizar_paso_aux_valido n draws w hv]
      obtain ⟨he, hlen, hhead, hlast, hchain, htail⟩ := h
      rw [he] at hv
      refine ⟨he, ?_, ?_, ?_, ?_, ?_⟩
      · simp [List.length_append, hlen]
      · cases hc : w.camino with
        | nil => rw [hc] at hhead; exact absurd hhead (by simp)
        | cons a t =>
          rw [hc] at hhead
          simpa using hhead
      · exact List.getLast?_concat _
      · rw [List.chain'_append]
        refine ⟨hchain, List.chain'_singleton _, ?_⟩
        intro x hx y hy
        rw [hlast] at hx
        simp at hx hy
        subst hx
        subst hy
        show (_, _) ∈ DIRECCIONES
        have : (w.posicion_actual.1 + (elegir_direccion (draws 0)).1 - w.posicion_actual.1,
                w.posicion_actual.2 + (elegir_direccion (draws 0)).2 - w.posicion_actual.2) =
               elegir_direccion (draws 0) := by
          simp
        rw [this]
        exact elegir_direccion_mem (draws 0)
      · cases hc : w.camino with
        | nil => rw [hc] at hhead; exact absurd hhead (by simp)
        | cons a t =>
          rw [hc] at htail
          intro p hp
          simp only [List.cons_append, List.tail_cons] at hp
          rcases List.mem_append.1 hp with hpt | hpc
          · exact htail p hpt
          · simp at hpc
            rw [hpc]
            exact hv
    · rw [Bool.not_eq_true] at hv
      rw [realizar_paso_aux_invalido n draws w hv]
      exact invariante_paso_aux n (shift draws) _ e h

theorem invariante_paso (w : RandomWalk) (draws : Nat → Fin 4) (mi : Int) (e : Entorno)
    (h : invariante e w) : invariante e (realizar_paso w draws mi).2.1 :=
  invariante_paso_aux mi.toNat draws w e h

theorem invariante_bucle :
    ∀ (n : Nat) (w : RandomWalk) (draws : Nat → Fin 4) (mi : Int) (e : Entorno),
      invariante e w → invariante e (simular_bucle mi n (w, draws)).1
  | 0, _, _, _, _ => fun h => h
  | n + 1, w, draws, mi, e => fun h => by
    show invariante e (simular_bucle mi (n + 1) (w, draws)).1
    rw [simular_bucle]
    by_cases hx : (realizar_paso w draws mi).1 = true
    · rw [if_pos hx]
      exact invariante_bucle n _ _ mi e (invariante_paso w draws mi e h)
    · rw [if_neg hx]
      exact invariante_paso w draws mi e h

/-- `reiniciar` rebuilds exactly the freshly constructed engine over the
same environment. -/
theorem reiniciar_eq_init (w : RandomWalk) : reiniciar w = RandomWalk.init w.entorno :=
  rfl

theorem alcanzable_invariante (e : Entorno) (w : RandomWalk)
    (h : Alcanzable e w) : invariante e w := by
  induction h with
  | inicial => exact invariante_init e
  | paso w draws mi _ ih => exact invariante_paso w draws mi e ih
  | simulacion w draws n mi _ ih => exact invariante_bucle n w draws mi e ih
  | reinicio w _ ih =>
    rw [reiniciar_eq_init, ih.1]
    exact invariante_init e

/-! ### Exhaustion lemmas -/

/-- When every allowed sample yields an invalid candidate, the loop returns
failure. -/
theorem realizar_paso_aux_todos_invalidos :
    ∀ (n : Nat) (draws : Nat → Fin 4) (w : RandomWalk),
      (∀ j < n, es_posicion_valida w.entorno
        (w.posicion_actual.1 + (elegir_direccion (draws j)).1)
        (w.posicion_actual.2 + (elegir_direccion (draws j)).2) = false) →
      (realizar_paso_aux n draws w).1 = false
  | 0, _, _ => fun _ => rfl
  | n + 1, draws, w => fun hall => by
    have hv := hall 0 (Nat.succ_pos n)
    rw [realizar_paso_aux_invalido n draws w hv]
    exact realizar_paso_aux_todos_invalidos n (shift draws) _
      (fun j hj => hall (j + 1) (by omega))

/-- In a 1×1 environment with the agent at the origin, every sampled
candidate is invalid, so every step call fails. -/
theorem realizar_paso_aux_1x1 :
    ∀ (n : Nat) (draws : Nat → Fin 4) (w : RandomWalk),
      w.entorno.ancho = 1 → w.entorno.alto = 1 → w.posicion_actual = (0, 0) →
      (realizar_paso_aux n draws w).1 = false := by
  intro n draws w ha hb hp
  apply realizar_paso_aux_todos_invalidos
  intro j _
  rcases elegir_direccion_cases (draws j) with h | h | h | h <;>
    simp [es_posicion_valida, h, hp, ha, hb]

theorem realizar_paso_exito (w : RandomWalk) (draws : Nat → Fin 4) (mi : Int)
    (h : (realizar_paso w draws mi).1 = true) :
    (realizar_paso w draws mi).2.1.pasos_realizados = w.pasos_realizados + 1 :=
  realizar_paso_aux_exito mi.toNat draws w h

theorem realizar_paso_fallo (w : RandomWalk) (draws : Nat → Fin 4) (mi : Int)
    (h : (realizar_paso w draws mi).1 = false) :
    (realizar_paso w draws mi).2.1 =
      { w with intentos_bloqueados := w.intentos_bloqueados + mi.toNat } :=
  realizar_paso_aux_fallo mi.toNat draws w h

/-! ### Unfolding lemmas for the simulation loop -/

theorem iterar_succ (mi : Int) (k : Nat) (s : RandomWalk × (Nat → Fin 4)) :
    iterar mi (k + 1) s = iterar mi k (realizar_paso s.1 s.2 mi).2 :=
  rfl

theorem simular_bucle_succ (mi : Int) (n : Nat) (s : RandomWalk × (Nat → Fin 4)) :
    simular_bucle mi (n + 1) s =
      if (realizar_paso s.1 s.2 mi).1 then
        simular_bucle mi n (realizar_paso s.1 s.2 mi).2
      else
        (realizar_paso s.1 s.2 mi).2 :=
  rfl

/-- Characterisation of the simulation loop: for some `k ≤ n`, the first
`k` step calls succeed, the loop either used its whole budget (`k = n`) or
stopped right after its first failing call (call number `k + 1`, with no
further call), and the final state records exactly `k` completed steps. -/
theorem simular_bucle_carac :
    ∀ (n : Nat) (w : RandomWalk) (draws : Nat → Fin 4) (mi : Int),
      ∃ k, k ≤ n ∧
        (∀ j < k,
          (realizar_paso (iterar mi j (w, draws)).1 (iterar mi j (w, draws)).2 mi).1 = true) ∧
        ((k = n ∧ simular_bucle mi n (w, draws) = iterar mi n (w, draws)) ∨
         (k < n ∧
           (realizar_paso (iterar mi k (w, draws)).1 (iterar mi k (w, draws)).2 mi).1 = false ∧
           simular_bucle mi n (w, draws) = iterar mi (k + 1) (w, draws))) ∧
        (simular_bucle mi n (w, draws)).1.pasos_realizados = w.pasos_realizados + k
  | 0, w, draws, mi =>
    ⟨0, Nat.le_refl 0, fun j hj => absurd hj (Nat.not_lt_zero j), Or.inl ⟨rfl, rfl⟩, rfl⟩
  | n + 1, w, draws, mi => by
    by_cases hr : (realizar_paso w draws mi).1 = true
    · obtain ⟨k, hk, hsucc, hdisj, hpasos⟩ :=
        simular_bucle_carac n (realizar_paso w draws mi).2.1 (realizar_paso w draws mi).2.2 mi
      have hb : simular_bucle mi (n + 1) (w, draws) =
          simular_bucle mi n ((realizar_paso w draws mi).2.1, (realizar_paso w draws mi).2.2) := by
        rw [simular_bucle_succ, if_pos hr]
      refine ⟨k + 1, by omega, ?_, ?_, ?_⟩
      · intro j hj
        cases j with
        | zero => exact hr
        | succ j' => exact hsucc j' (by omega)
      · rcases hdisj with ⟨hkn, heq⟩ | ⟨hkn, hfail, heq⟩
        · refine Or.inl ⟨by omega, ?_⟩
          rw [hb]
          exact heq
        · refine Or.inr ⟨by omega, hfail, ?_⟩
          rw [hb]
          exact heq
      · rw [hb, hpasos, realizar_paso_exito w draws mi hr]
        omega
    · rw [Bool.not_eq_true] at hr
      have hb : simular_bucle mi (n + 1) (w, draws) = (realizar_paso w draws mi).2 := by
        rw [simular_bucle_succ, if_neg (by simp [hr])]
      refine ⟨0, by omega, fun j hj => absurd hj (Nat.not_lt_zero j),
        Or.inr ⟨by omega, hr, ?_⟩, ?_⟩
      · rw [hb]
        exact (iterar_succ mi 0 (w, draws)).symm
      · rw [hb, realizar_paso_fallo w draws mi hr]
        show w.pasos_realizados = w.pasos_realizados + 0
        omega

/-! ### Claims -/

/-- C1: within a step call, a sampled direction whose candidate is valid is
committed at once — position set to the candidate, candidate appended to
the path, `pasos_realizados` incremented by exactly 1, `intentos_bloqueados`
untouched — and the call returns success consuming no further samples; an
invalid candidate instead increments `intentos_bloqueados` by exactly 1 and
the call resamples on the remaining budget with position, path and step
counter unchanged. -/
theorem claim_C1 (w : RandomWalk) (draws : Nat → Fin 4) (mi : Int) (hmi : 1 ≤ mi) :
    (es_posicion_valida w.entorno
        (w.posicion_actual.1 + (elegir_direccion (draws 0)).1)
        (w.posicion_actual.2 + (elegir_direccion (draws 0)).2) = true →
      realizar_paso w draws mi =
        (true,
          { entorno := w.entorno
            posicion_actual :=
              (w.posicion_actual.1 + (elegir_direccion (draws 0)).1,
               w.posicion_actual.2 + (elegir_direccion (draws 0)).2)
            camino := w.camino ++
              [(w.posicion_actual.1 + (elegir_direccion (draws 0)).1,
                w.posicion_actual.2 + (elegir_direccion (draws 0)).2)]
            pasos_realizados := w.pasos_realizados + 1
            intentos_bloqueados := w.intentos_bloqueados },
          shift draws)) ∧
    (es_posicion_valida w.entorno
        (w.posicion_actual.1 + (elegir_direccion (draws 0)).1)
        (w.posicion_actual.2 + (elegir_direccion (draws 0)).2) = false →
      realizar_paso w draws mi =
        realizar_paso_aux (mi.toNat - 1) (shift draws)
          { entorno := w.entorno
            posicion_actual := w.posicion_actual
            camino := w.camino
            pasos_realizados := w.pasos_realizados
            intentos_bloqueados := w.intentos_bloqueados + 1 }) := by
  have hn : mi.toNat = (mi.toNat - 1) + 1 := by omega
  constructor
  · intro hv
    show realizar_paso_aux mi.toNat draws w = _
    conv_lhs => rw [hn]
    rw [realizar_paso_aux_valido (mi.toNat - 1) draws w hv]
  · intro hv
    show realizar_paso_aux mi.toNat draws w = _
    conv_lhs => rw [hn]
    rw [realizar_paso_aux_invalido (mi.toNat - 1) draws w hv]

/-- Witness for C1: in a 2×2 region at the origin a sampled right move is
committed, and a sampled up move is rejected with one blocked attempt. -/
theorem claim_C1_witness :
    (realizar_paso (RandomWalk.init (Entorno.crear 2 2 (some (0, 0)))) (fun _ => 3) 5).2.1.camino =
      [(0, 0), (1, 0)] ∧
    (realizar_paso (RandomWalk.init (Entorno.crear 2 2 (some (0, 0)))) (fun _ => 0) 1).2.1.intentos_bloqueados = 1 := by
  constructor
  · have h := (claim_C1 (RandomWalk.init (Entorno.crear 2 2 (some (0, 0))))
      (fun _ => 3) 5 (by decide)).1 (by decide)
    rw [h]
    rfl
  · have h := (claim_C1 (RandomWalk.init (Entorno.crear 2 2 (some (0, 0))))
      (fun _ => 0) 1 (by decide)).2 (by decide)
    rw [h]
    rfl

/-- C2: a step call all of whose allowed samples give invalid candidates
returns failure and leaves position, path and step counter exactly as
before, with `intentos_bloqueados` increased by exactly the attempt budget
(the increments persist, they are not rolled back); in particular on a 1×1
region at the origin every step call fails, and one with budget 50 adds
exactly 50 blocked attempts while the step counter stays put. -/
theorem claim_C2 (w : RandomWalk) (draws : Nat → Fin 4) (mi : Int) (hmi : 0 < mi) :
    ((∀ j < mi.toNat, es_posicion_valida w.entorno
        (w.posicion_actual.1 + (elegir_direccion (draws j)).1)
        (w.posicion_actual.2 + (elegir_direccion (draws j)).2) = false) →
      (realizar_paso w draws mi).1 = false ∧
      (realizar_paso w draws mi).2.1 =
        { w with intentos_bloqueados := w.intentos_bloqueados + mi.toNat } ∧
      (mi.toNat : Int) = mi) ∧
    (w.entorno.ancho = 1 → w.entorno.alto = 1 → w.posicion_actual = (0, 0) →
      (realizar_paso w draws 50).1 = false ∧
      (realizar_paso w draws 50).2.1 =
        { w with intentos_bloqueados := w.intentos_bloqueados + 50 }) := by
  constructor
  · intro hinv
    have hf : (realizar_paso w draws mi).1 = false :=
      realizar_paso_aux_todos_invalidos mi.toNat draws w hinv
    exact ⟨hf, realizar_paso_aux_fallo mi.toNat draws w hf, by omega⟩
  · intro ha hb hp
    have hf : (realizar_paso w draws 50).1 = false :=
      realizar_paso_aux_1x1 ((50 : Int)).toNat draws w ha hb hp
    refine ⟨hf, ?_⟩
    rw [realizar_paso_fallo w draws 50 hf]
    rfl

/-- Witness for C2: the freshly constructed engine over the 1×1 region with
start `(0,0)` fails a 50-attempt step and accumulates 50 blocked attempts. -/
theorem claim_C2_witness :
    (0 : Int) < 50 ∧
    (realizar_paso (RandomWalk.init (Entorno.crear 1 1 (some (0, 0)))) (fun _ => 0) 50).1 = false ∧
    (realizar_paso (RandomWalk.init (Entorno.crear 1 1 (some (0, 0)))) (fun _ => 0) 50).2.1.intentos_bloqueados = 50 := by
  refine ⟨by decide, ?_⟩
  have h := (claim_C2 (RandomWalk.init (Entorno.crear 1 1 (some (0, 0))))
    (fun _ => 0) 50 (by decide)).2 rfl rfl rfl
  refine ⟨h.1, ?_⟩
  rw [h.2]
  rfl

/-- C10: a step call with a non-positive attempt budget never enters the
loop body: it returns failure at once, consumes no sample and leaves every
field of the engine state unchanged, including `intentos_bloqueados`. -/
theorem claim_C10 (w : RandomWalk) (draws : Nat → Fin 4) (mi : Int) (hmi : mi ≤ 0) :
    realizar_paso w draws mi = (false, w, draws) := by
  show realizar_paso_aux mi.toNat draws w = (false, w, draws)
  rw [Int.toNat_of_nonpos hmi]
  rfl

/-- Witness for C10 at budget `-3` on a concrete engine. -/
theorem claim_C10_witness :
    (-3 : Int) ≤ 0 ∧
    realizar_paso (RandomWalk.init (Entorno.crear 3 3 none)) (fun _ => 0) (-3) =
      (false, RandomWalk.init (Entorno.crear 3 3 none), fun _ => 0) :=
  ⟨by decide, claim_C10 _ _ (-3) (by decide)⟩


/-- C7: the validity predicate holds exactly on the rectangle
`0 ≤ x < ancho`, `0 ≤ y < alto`; it is a pure function of the region and
the coordinates (the embedding is side-effect free by construction). -/
theorem claim_C7 (e : Entorno) (x y : Int) :
    es_posicion_valida e x y = true ↔ 0 ≤ x ∧ x < e.ancho ∧ 0 ≤ y ∧ y < e.alto := by
  simp [es_posicion_valida]

/-- C6: after any reachable history, `reiniciar` rebuilds exactly the
freshly constructed engine over the same region; it is total, hence never
fails. -/
theorem claim_C6 (e : Entorno) (w : RandomWalk) (h : Alcanzable e w) :
    reiniciar w = RandomWalk.init e ∧
    (reiniciar w).posicion_actual = e.pos_inicial ∧
    (reiniciar w).camino = [e.pos_inicial] ∧
    (reiniciar w).pasos_realizados = 0 ∧
    (reiniciar w).intentos_bloqueados = 0 := by
  have he : w.entorno = e := (alcanzable_invariante e w h).1
  rw [reiniciar_eq_init, he]
  exact ⟨rfl, rfl, rfl, rfl, rfl⟩

/-- Witness for C6 on a concrete engine after one successful step. -/
theorem claim_C6_witness :
    reiniciar (realizar_paso (RandomWalk.init (Entorno.crear 2 2 (some (0, 0)))) (fun _ => 3) 5).2.1 =
      RandomWalk.init (Entorno.crear 2 2 (some (0, 0))) :=
  (claim_C6 (Entorno.crear 2 2 (some (0, 0))) _
    (Alcanzable.paso _ (fun _ => 3) 5 Alcanzable.inicial)).1

/-- C3 counterexample: the constructor accepts a caller-supplied start
outside the region, and the freshly constructed engine (reachable by the
empty operation sequence) then has a path element that fails the validity
predicate, refuting the containment invariant as claimed. -/
theorem claim_C3_counterexample :
    Alcanzable (Entorno.crear 1 1 (some (5, 5)))
      (RandomWalk.init (Entorno.crear 1 1 (some (5, 5)))) ∧
    (5, 5) ∈ (RandomWalk.init (Entorno.crear 1 1 (some (5, 5)))).camino ∧
    es_posicion_valida (Entorno.crear 1 1 (some (5, 5))) 5 5 = false :=
  ⟨Alcanzable.inicial, by decide, by decide⟩

/-- C3 (amended): on every reachable engine state,
`len(camino) = pasos_realizados + 1`, the path starts at the region start
and ends at the current position; and provided the region start itself
satisfies the validity predicate (the constructor does not enforce this),
every element of the path is valid. -/
theorem claim_C3 (e : Entorno) (w : RandomWalk) (h : Alcanzable e w) :
    w.camino.length = w.pasos_realizados + 1 ∧
    w.camino.head? = some e.pos_inicial ∧
    w.camino.getLast? = some w.posicion_actual ∧
    (es_posicion_valida e e.pos_inicial.1 e.pos_inicial.2 = true →
      ∀ p ∈ w.camino, es_posicion_valida e p.1 p.2 = true) := by
  obtain ⟨he, hlen, hhead, hlast, hchain, htail⟩ := alcanzable_invariante e w h
  refine ⟨hlen, hhead, hlast, ?_⟩
  intro hstart p hp
  cases hc : w.camino with
  | nil =>
    rw [hc] at hp
    simp at hp
  | cons a t =>
    rw [hc] at hhead htail hp
    rcases List.mem_cons.1 hp with h1 | h2
    · have ha : a = e.pos_inicial := by simpa using hhead
      rw [h1, ha]
      exact hstart
    · exact htail p (by simpa using h2)

/-- Witness for C3 on a concrete reachable engine after one successful
step in a 2×2 region. -/
theorem claim_C3_witness :
    ((realizar_paso (RandomWalk.init (Entorno.crear 2 2 (some (0, 0)))) (fun _ => 3) 7).2.1.camino.length =
      (realizar_paso (RandomWalk.init (Entorno.crear 2 2 (some (0, 0)))) (fun _ => 3) 7).2.1.pasos_realizados + 1 ∧
    (realizar_paso (RandomWalk.init (Entorno.crear 2 2 (some (0, 0)))) (fun _ => 3) 7).2.1.camino.head? =
      some (Entorno.crear 2 2 (some (0, 0))).pos_inicial ∧
    (realizar_paso (RandomWalk.init (Entorno.crear 2 2 (some (0, 0)))) (fun _ => 3) 7).2.1.camino.getLast? =
      some (realizar_paso (RandomWalk.init (Entorno.crear 2 2 (some (0, 0)))) (fun _ => 3) 7).2.1.posicion_actual ∧
    (es_posicion_valida (Entorno.crear 2 2 (some (0, 0)))
        (Entorno.crear 2 2 (some (0, 0))).pos_inicial.1
        (Entorno.crear 2 2 (some (0, 0))).pos_inicial.2 = true →
      ∀ p ∈ (realizar_paso (RandomWalk.init (Entorno.crear 2 2 (some (0, 0)))) (fun _ => 3) 7).2.1.camino,
        es_posicion_valida (Entorno.crear 2 2 (some (0, 0))) p.1 p.2 = true)) :=
  claim_C3 (Entorno.crear 2 2 (some (0, 0))) _
    (Alcanzable.paso _ (fun _ => 3) 7 Alcanzable.inicial)

/-- C4: on every reachable engine state, consecutive path entries differ by
exactly one of the four canonical unit displacements. -/
theorem claim_C4 (e : Entorno) (w : RandomWalk) (h : Alcanzable e w)
    (i : Nat) (hi : i + 1 < w.camino.length) :
    ((w.camino.get ⟨i + 1, hi⟩).1 - (w.camino.get ⟨i, Nat.lt_of_succ_lt hi⟩).1,
     (w.camino.get ⟨i + 1, hi⟩).2 - (w.camino.get ⟨i, Nat.lt_of_succ_lt hi⟩).2) ∈ DIRECCIONES := by
  have hchain := (alcanzable_invariante e w h).2.2.2.2.1
  have hadj := List.chain'_iff_get.1 hchain i (by omega)
  exact hadj

/-- Witness for C4: the first displacement of a concrete one-step walk is
the canonical right move. -/
theorem claim_C4_witness :
    ∃ hi : 0 + 1 < (realizar_paso (RandomWalk.init (Entorno.crear 2 2 (some (0, 0)))) (fun _ => 3) 7).2.1.camino.length,
      (((realizar_paso (RandomWalk.init (Entorno.crear 2 2 (some (0, 0)))) (fun _ => 3) 7).2.1.camino.get ⟨0 + 1, hi⟩).1 -
        ((realizar_paso (RandomWalk.init (Entorno.crear 2 2 (some (0, 0)))) (fun _ => 3) 7).2.1.camino.get ⟨0, Nat.lt_of_succ_lt hi⟩).1,
       ((realizar_paso (RandomWalk.init (Entorno.crear 2 2 (some (0, 0)))) (fun _ => 3) 7).2.1.camino.get ⟨0 + 1, hi⟩).2 -
        ((realizar_paso (RandomWalk.init (Entorno.crear 2 2 (some (0, 0)))) (fun _ => 3) 7).2.1.camino.get ⟨0, Nat.lt_of_succ_lt hi⟩).2) ∈ DIRECCIONES :=
  ⟨by decide,
    claim_C4 (Entorno.crear 2 2 (some (0, 0))) _
      (Alcanzable.paso _ (fun _ => 3) 7 Alcanzable.inicial) 0 (by decide)⟩

/-- C5: `simular` makes at most `num_pasos` sequential step calls — for
some `k ≤ num_pasos` the first `k` calls succeed and either the whole
budget was used (`k = num_pasos`) or the call right after the `k`-th
success fails and the loop stops there for good, with no outer retry — and
it returns the statistics snapshot of the state actually reached, which
reflects exactly the `k` completed steps (possibly fewer than requested). -/
theorem claim_C5 (w : RandomWalk) (draws : Nat → Fin 4) (num_pasos : Nat) (mi : Int) :
    simular w draws num_pasos mi =
      obtener_estadisticas (simular_bucle mi num_pasos (w, draws)).1 ∧
    ∃ k, k ≤ num_pasos ∧
      (∀ j < k,
        (realizar_paso (iterar mi j (w, draws)).1 (iterar mi j (w, draws)).2 mi).1 = true) ∧
      ((k = num_pasos ∧
          simular_bucle mi num_pasos (w, draws) = iterar mi num_pasos (w, draws)) ∨
       (k < num_pasos ∧
         (realizar_paso (iterar mi k (w, draws)).1 (iterar mi k (w, draws)).2 mi).1 = false ∧
         simular_bucle mi num_pasos (w, draws) = iterar mi (k + 1) (w, draws))) ∧
      (simular w draws num_pasos mi).pasos_realizados = w.pasos_realizados + k := by
  refine ⟨rfl, ?_⟩
  obtain ⟨k, hk, hsucc, hdisj, hpasos⟩ := simular_bucle_carac num_pasos w draws mi
  exact ⟨k, hk, hsucc, hdisj, hpasos⟩

/-- C8: the statistics snapshot reports the euclidean distance
`sqrt((x-x0)^2+(y-y0)^2)` and the manhattan distance `|x-x0|+|y-y0|`
between start `(x0,y0)` and current position `(x,y)`; in particular for
start `(0,0)` and position `(3,4)` they are `5` and `7`. -/
theorem claim_C8 (w : RandomWalk) :
    ((obtener_estadisticas w).distancia_euclidiana =
        Real.sqrt (((w.posicion_actual.1 - w.entorno.pos_inicial.1) ^ 2 +
          (w.posicion_actual.2 - w.entorno.pos_inicial.2) ^ 2 : Int) : ℝ) ∧
      (obtener_estadisticas w).distancia_manhattan =
        |w.posicion_actual.1 - w.entorno.pos_inicial.1| +
        |w.posicion_actual.2 - w.entorno.pos_inicial.2|) ∧
    (w.entorno.pos_inicial = (0, 0) → w.posicion_actual = (3, 4) →
      (obtener_estadisticas w).distancia_euclidiana = 5 ∧
      (obtener_estadisticas w).distancia_manhattan = 7) := by
  refine ⟨⟨rfl, rfl⟩, ?_⟩
  intro h0 h1
  constructor
  · show Real.sqrt (((w.posicion_actual.1 - w.entorno.pos_inicial.1) ^ 2 +
        (w.posicion_actual.2 - w.entorno.pos_inicial.2) ^ 2 : Int) : ℝ) = 5
    rw [h0, h1]
    have h25 : (((3, 4) : Int × Int).1 - ((0, 0) : Int × Int).1) ^ 2 +
        (((3, 4) : Int × Int).2 - ((0, 0) : Int × Int).2) ^ 2 = (25 : Int) := by decide
    rw [h25, show ((25 : Int) : ℝ) = (5 : ℝ) ^ 2 by norm_num,
      Real.sqrt_sq (by norm_num : (0 : ℝ) ≤ 5)]
  · show |w.posicion_actual.1 - w.entorno.pos_inicial.1| +
        |w.posicion_actual.2 - w.entorno.pos_inicial.2| = 7
    rw [h0, h1]
    decide

/-- Witness for C8 on a concrete engine state with start `(0,0)` and
current position `(3,4)`. -/
theorem claim_C8_witness :
    (obtener_estadisticas
        { RandomWalk.init (Entorno.crear 10 10 (some (0, 0))) with
          posicion_actual := (3, 4) }).distancia_euclidiana = 5 ∧
    (obtener_estadisticas
        { RandomWalk.init (Entorno.crear 10 10 (some (0, 0))) with
          posicion_actual := (3, 4) }).distancia_manhattan = 7 :=
  (claim_C8 _).2 rfl rfl

/-- C9 counterexample: after one exhausted 5-attempt step on the 1×1
region the snapshot has 0 steps and 5 blocked attempts — the denominator
`pasos + bloqueados` is nonzero, yet the presentation layer does not
compute the efficiency metric, because its guard is `pasos_realizados > 0`,
refuting the claim's definedness condition. -/
theorem claim_C9_counterexample :
    eficiencia (obtener_estadisticas
      (realizar_paso (RandomWalk.init (Entorno.crear 1 1 (some (0, 0)))) (fun _ => 0) 5).2.1) = none ∧
    (obtener_estadisticas
        (realizar_paso (RandomWalk.init (Entorno.crear 1 1 (some (0, 0)))) (fun _ => 0) 5).2.1).pasos_realizados +
      (obtener_estadisticas
        (realizar_paso (RandomWalk.init (Entorno.crear 1 1 (some (0, 0)))) (fun _ => 0) 5).2.1).intentos_bloqueados ≠ 0 := by
  exact ⟨rfl, by decide⟩

/-- C9 (amended): the presentation-layer efficiency metric equals
`pasos / (pasos + bloqueados) * 100` and is computed exactly when
`pasos_realizados > 0` — a guard that implies a nonzero denominator but is
strictly stronger than it. -/
theorem claim_C9 (est : Estadisticas) :
    (0 < est.pasos_realizados →
      eficiencia est =
        some ((est.pasos_realizados : ℚ) /
          ((est.pasos_realizados : ℚ) + (est.intentos_bloqueados : ℚ)) * 100) ∧
      est.pasos_realizados + est.intentos_bloqueados ≠ 0) ∧
    (est.pasos_realizados = 0 → eficiencia est = none) := by
  constructor
  · intro h
    refine ⟨?_, by omega⟩
    unfold eficiencia
    rw [if_pos h]
  · intro h
    unfold eficiencia
    rw [if_neg (by omega)]

/-- Witness for C9 on a snapshot with 1 step and 0 blocked attempts, where
the metric is computed and equals 100. -/
theorem claim_C9_witness :
    eficiencia (obtener_estadisticas
      (realizar_paso (RandomWalk.init (Entorno.crear 2 2 (some (0, 0)))) (fun _ => 3) 5).2.1) =
      some 100 := by
  have h := ((claim_C9 (obtener_estadisticas
    (realizar_paso (RandomWalk.init (Entorno.crear 2 2 (some (0, 0)))) (fun _ => 3) 5).2.1)).1
    (by decide)).1
  rw [h]
  show some (((1 : Nat) : ℚ) / (((1 : Nat) : ℚ) + ((0 : Nat) : ℚ)) * 100) = some 100
  norm_num

end SimpleRandomWalk
